import Mathlib

/-!
Verification of the Tessy build orchestrator (Miosp/Tessy) against its
natural-language specification.

The development shallowly embeds the core of the Rust sources:
tasks and their YAML parsing (src/tasks), the dependency graph
(src/executor/dependency_graph.rs), the scheduler/executor
(src/executor/executor_impl.rs), the file fingerprinter
(src/file_dependencies/file_fingerprint.rs) and the dependency tracker
(src/file_dependencies/dependency_tracker.rs).

Modelling conventions:
- Rust HashMap / LinkedHashMap values are embedded as association lists
  with first-match lookup; map equality is extensional (same lookups).
- Filesystem paths are lists of segments; the filesystem itself is a
  finite tree supplied as an argument.
- External effects (hashing, compression, serialization, subprocess
  outcomes) are parameters of the embedded functions.
- The scheduler completion channel is a FIFO list of events; worker
  completions are enqueued at dispatch time, which realizes one
  admissible schedule of the concurrent system.
-/

namespace Tessy

/-! ## Task data model (src/tasks/base_task.rs, execute_task.rs, task.rs) -/

/-- BaseTask: shared scalar fields of every task variant. -/
structure BaseTask where
  name : String
  dependencies : List String
  inputs : List String
deriving Repr, DecidableEq

/-- ExecuteTask: the Execute variant payload, embedding a BaseTask. -/
structure ExecuteTask where
  base_task : BaseTask
  command : String
deriving Repr, DecidableEq

/-- Task: the tagged sum of task variants; only Execute exists. -/
inductive Task where
  | execute (task : ExecuteTask)
deriving Repr, DecidableEq

def Task.id : Task → String
  | .execute t => t.base_task.name

def Task.dependencies : Task → List String
  | .execute t => t.base_task.dependencies

def Task.inputs : Task → List String
  | .execute t => t.base_task.inputs

def Task.command : Task → String
  | .execute t => t.command

/-! ## YAML values (saphyr Yaml, restricted to what the parser inspects) -/

/-- Embedded YAML value. Scalar strings, integers, booleans and null cover
the scalar cases the parser distinguishes (string vs non-string); sequences
and mappings are structural. -/
inductive Yaml where
  | str (s : String)
  | int (n : Int)
  | bool (b : Bool)
  | null
  | seq (items : List Yaml)
  | map (entries : List (Yaml × Yaml))

/-- saphyr as_str: Some only for string scalars. -/
def yamlAsStr : Yaml → Option String
  | .str s => some s
  | _ => none

/-- saphyr as_sequence: Some only for sequences. -/
def yamlAsSequence : Yaml → Option (List Yaml)
  | .seq items => some items
  | _ => none

/-- Whether a YAML key equals the string scalar with text s
(LinkedHashMap key equality against Yaml::Value(Scalar::String(s))). -/
def yamlIsStrKey (key : Yaml) (s : String) : Bool :=
  match key with
  | .str t => t = s
  | _ => false

/-- LinkedHashMap::get with a string-scalar key: first entry whose key is
the string scalar s. -/
def yamlMapGet (entries : List (Yaml × Yaml)) (s : String) : Option Yaml :=
  (entries.find? (fun e => yamlIsStrKey e.1 s)).map (fun e => e.2)

/-- The dependsOn list read by BaseTask::from_task_yaml: the dependsOn
value as a sequence with non-string items filtered out, defaulting to []. -/
def yamlStringListField (task_data : List (Yaml × Yaml)) (field : String) : List String :=
  match (yamlMapGet task_data field).bind yamlAsSequence with
  | some items => items.filterMap yamlAsStr
  | none => []

/-- BaseTask::from_task_yaml: never fails; missing or non-sequence
dependsOn and inputs values default to empty lists. -/
def BaseTask.from_task_yaml (task_name : String) (task_data : List (Yaml × Yaml)) :
    Option BaseTask :=
  some { name := task_name
         dependencies := yamlStringListField task_data "dependsOn"
         inputs := yamlStringListField task_data "inputs" }

/-- ExecuteTask::from_task_yaml: requires a string command value; the
base task parse cannot fail. -/
def ExecuteTask.from_task_yaml (task_name : String) (task_data : List (Yaml × Yaml)) :
    Option ExecuteTask := do
  let commandYaml ← yamlMapGet task_data "command"
  let command ← yamlAsStr commandYaml
  let base ← BaseTask.from_task_yaml task_name task_data
  pure { base_task := base, command := command }

/-- The type declaration read by Task::from_task_yaml:
task_data.get("type").and_then(as_str). -/
def taskTypeDeclaration (task_data : List (Yaml × Yaml)) : Option String :=
  (yamlMapGet task_data "type").bind yamlAsStr

/-- Task::from_task_yaml: a string type value other than execute rejects
the entry; a missing type key or a non-string type value selects the
Execute variant. -/
def Task.from_task_yaml (task_name : String) (task_data : List (Yaml × Yaml)) :
    Option Task :=
  match taskTypeDeclaration task_data with
  | some s =>
      if s = "execute" then (ExecuteTask.from_task_yaml task_name task_data).map Task.execute
      else none
  | none => (ExecuteTask.from_task_yaml task_name task_data).map Task.execute

/-! ## Filesystem model

Paths are lists of segments. The filesystem is a finite tree; a file node
carries the result of metadata.modified() (none when the filesystem does
not expose a modification time) and the result of fs::read (none when the
read fails). Directory entry names are unique on a real filesystem, so
resolving the path of an entry yields that entry. -/

/-- A filesystem node: a regular file with its modified-time metadata and
readable contents, or a directory with named entries. -/
inductive FsTree where
  | file (modified : Option Nat) (contents : Option (List Nat))
  | dir (entries : List (String × FsTree))

/-- Path type: a list of path segments. -/
abbrev FsPath := List String

/-- Split a character list into segments at the path separator. -/
def splitCharsOnSlash : List Char → List (List Char)
  | [] => [[]]
  | c :: rest =>
      let segments := splitCharsOnSlash rest
      if c = '/' then [] :: segments
      else
        match segments with
        | [] => [[c]]
        | segment :: more => (c :: segment) :: more

/-- PathBuf::join of a base path and a (relative) input string, splitting
the input on the path separator. -/
def joinPath (base : FsPath) (input : String) : FsPath :=
  base ++ (splitCharsOnSlash input.data).map String.mk

/-- Look a name up among directory entries (first match). -/
def fsFindEntry (entries : List (String × FsTree)) (name : String) : Option FsTree :=
  (entries.find? (fun e => e.1 = name)).map (fun e => e.2)

/-- Resolve a path in the filesystem tree; none models a nonexistent path. -/
def fsResolve (tree : FsTree) : FsPath → Option FsTree
  | [] => some tree
  | name :: rest =>
      match tree with
      | .file _ _ => none
      | .dir entries =>
          match fsFindEntry entries name with
          | some child => fsResolve child rest
          | none => none

/-! ## File fingerprints (src/file_dependencies/file_fingerprint.rs) -/

/-- FileFingerprint: a filesystem modification time or a 64-bit content
hash. SystemTime and u64 are both modelled as Nat. -/
inductive FileFingerprint where
  | modifiedTime (t : Nat)
  | hash (h : Nat)
deriving Repr, DecidableEq

/-- The fingerprint error type (path payloads kept, io sources dropped). -/
inductive FingerprintError where
  | pathError (path : FsPath)
  | directoryError (path : FsPath)
deriving Repr, DecidableEq

/-- FileFingerprint::async_try_from: metadata lookup (resolution) failure
is a PathError; a directory is a DirectoryError; an available modification
time short-circuits to ModifiedTime without reading; otherwise the whole
file is read and hashed (metroHash is the embedded MetroHash64), a failed
read being a PathError. -/
def FileFingerprint.async_try_from (metroHash : List Nat → Nat) (fs : FsTree)
    (path : FsPath) : Except FingerprintError FileFingerprint :=
  match fsResolve fs path with
  | none => .error (.pathError path)
  | some (.dir _) => .error (.directoryError path)
  | some (.file modified contents) =>
      match modified with
      | some t => .ok (.modifiedTime t)
      | none =>
          match contents with
          | some bytes => .ok (.hash (metroHash bytes))
          | none => .error (.pathError path)

/-- Fingerprint a file node directly (the node async_try_from reaches
after resolving a file path). -/
def fingerprintFileNode (metroHash : List Nat → Nat) (modified : Option Nat)
    (contents : Option (List Nat)) : Option FileFingerprint :=
  match modified with
  | some t => some (.modifiedTime t)
  | none => contents.map (fun bytes => .hash (metroHash bytes))

/-! ## Dependency maps and the tracker
(src/file_dependencies/dependency_tracker.rs) -/

/-- A dependency record: path to fingerprint, as an association list. -/
abbrev DepMap := List (FsPath × FileFingerprint)

/-- Lookup in a dependency record. -/
def depLookup (m : DepMap) (k : FsPath) : Option FileFingerprint :=
  (m.find? (fun e => e.1 = k)).map (fun e => e.2)

/-- HashMap::insert into a dependency record: replace or add. -/
def depInsert (m : DepMap) (k : FsPath) (v : FileFingerprint) : DepMap :=
  (k, v) :: m.filter (fun e => ¬ e.1 = k)

/-- Extensional equality of dependency records, as HashMap equality:
same key set and equal fingerprint at every key. -/
def depMapEquiv (a b : DepMap) : Bool :=
  (a.all fun e => depLookup a e.1 = depLookup b e.1) &&
  (b.all fun e => depLookup a e.1 = depLookup b e.1)

/-- DependencyTracker: task id to dependency record, as an association
list. The default value is the empty tracker. -/
abbrev Tracker := List (String × DepMap)

/-- Lookup in a tracker. -/
def trackerLookup (tr : Tracker) (id : String) : Option DepMap :=
  (tr.find? (fun e => e.1 = id)).map (fun e => e.2)

/-- HashMap::insert into a tracker: replace or add. -/
def trackerInsert (tr : Tracker) (id : String) (deps : DepMap) : Tracker :=
  (id, deps) :: tr.filter (fun e => ¬ e.1 = id)

/-- get_dependencies_from_directory, inlined over the entry list of a
directory at path base: files contribute their fingerprint when
fingerprinting succeeds, subdirectories are scanned recursively. -/
def scanDirEntries (metroHash : List Nat → Nat) (base : FsPath) :
    List (String × FsTree) → List (FsPath × FileFingerprint)
  | [] => []
  | (name, FsTree.file modified contents) :: rest =>
      (match fingerprintFileNode metroHash modified contents with
       | some fp => [(base ++ [name], fp)]
       | none => []) ++ scanDirEntries metroHash base rest
  | (name, FsTree.dir entries) :: rest =>
      scanDirEntries metroHash (base ++ [name]) entries ++ scanDirEntries metroHash base rest

/-- get_dependencies_from_input: a nonexistent path yields none; a file
yields its fingerprint when fingerprinting succeeds; a directory yields
its recursive scan. -/
def getDependenciesFromInput (metroHash : List Nat → Nat) (fs : FsTree)
    (path : FsPath) : Option (List (FsPath × FileFingerprint)) :=
  match fsResolve fs path with
  | none => none
  | some (.file modified contents) =>
      (fingerprintFileNode metroHash modified contents).map (fun fp => [(path, fp)])
  | some (.dir entries) => some (scanDirEntries metroHash path entries)

/-- get_dependencies_from_inputs: each input is resolved against the
current working directory (env::current_dir), and the contributed pairs
are inserted into one map, later inputs overwriting earlier ones. -/
def getDependenciesFromInputs (metroHash : List Nat → Nat) (fs : FsTree)
    (cwd : FsPath) (inputs : List String) : DepMap :=
  inputs.foldl
    (fun acc input =>
      match getDependenciesFromInput metroHash fs (joinPath cwd input) with
      | some deps => deps.foldl (fun acc e => depInsert acc e.1 e.2) acc
      | none => acc)
    []

/-- Modelled from the spec: the expansion of §4.2, identical to the code
except that each input is resolved against an explicit base directory
(the spec names the project root as the base). -/
def expandSpec (metroHash : List Nat → Nat) (fs : FsTree)
    (base : FsPath) (inputs : List String) : DepMap :=
  inputs.foldl
    (fun acc input =>
      let path := joinPath base input
      match fsResolve fs path with
      | none => acc
      | some (.file modified contents) =>
          match fingerprintFileNode metroHash modified contents with
          | some fp => depInsert acc path fp
          | none => acc
      | some (.dir entries) =>
          (scanDirEntries metroHash path entries).foldl
            (fun acc e => depInsert acc e.1 e.2) acc)
    []

/-- DependencyTracker::is_task_up_to_date: false without a saved record,
otherwise HashMap equality of the saved record with the fresh expansion
of the task inputs. -/
def is_task_up_to_date (metroHash : List Nat → Nat) (fs : FsTree) (cwd : FsPath)
    (tr : Tracker) (task : Task) : Bool :=
  match trackerLookup tr task.id with
  | none => false
  | some saved => depMapEquiv saved (getDependenciesFromInputs metroHash fs cwd task.inputs)

/-- DependencyTracker::add_tasks_dependencies: for each task in order,
recompute the expansion of its inputs and insert it under the task id. -/
def add_tasks_dependencies (metroHash : List Nat → Nat) (fs : FsTree) (cwd : FsPath)
    (tr : Tracker) (tasks : List Task) : Tracker :=
  tasks.foldl
    (fun tr task =>
      trackerInsert tr task.id (getDependenciesFromInputs metroHash fs cwd task.inputs))
    tr

/-! ## Tracker persistence (read_from_bytes / write_into_path)

bincode and zstd are external crates; they are parameters given as
fallible encode/compress and decompress/decode functions over byte
strings (List Nat). The repository logic is their composition and the
degradation to the default tracker on every read failure. -/

/-- Byte strings for the persistence layer. -/
abbrev Bytes := List Nat

/-- DependencyTracker::read_from_bytes: decompress then decode; any
failure degrades to the default (empty) tracker. -/
def read_from_bytes (decompress : Bytes → Except String Bytes)
    (decode : Bytes → Except String Tracker) (bytes : Bytes) : Tracker :=
  match decompress bytes with
  | .error _ => []
  | .ok decompressed =>
      match decode decompressed with
      | .error _ => []
      | .ok tracker => tracker

/-- The bytes DependencyTracker::write_into_path writes: bincode encode
then zstd compress; none when either step fails (the write is skipped). -/
def write_bytes (encode : Tracker → Except String Bytes)
    (compress : Bytes → Except String Bytes) (tr : Tracker) : Option Bytes :=
  match encode tr with
  | .error _ => none
  | .ok encoded =>
      match compress encoded with
      | .error _ => none
      | .ok compressed => some compressed

/-! ## Task registry (src/config/config.rs) -/

/-- TaskRegistry: the catalog, as a list of tasks with unique ids. -/
abbrev TaskRegistry := List Task

/-- TaskRegistry::get_task_by_id. -/
def getTaskById (config : TaskRegistry) (id : String) : Option Task :=
  config.find? (fun t => t.id = id)

/-! ## Dependency graph (src/executor/dependency_graph.rs) -/

/-- collect_dependencies_recursive: DFS from a task id through declared
dependencies, with a visited set. The explicit fuel only bounds recursion
depth; a fuel of one more than the number of catalog tasks is enough,
since every frame that recurses adds a distinct catalog id to visited. -/
def collectDependenciesRecursive (config : TaskRegistry) :
    Nat → String → List String × List String → List String × List String
  | 0, _, state => state
  | fuel + 1, task_id, (needed, visited) =>
      if task_id ∈ visited then (needed, visited)
      else
        let visited := task_id :: visited
        let needed := task_id :: needed
        match getTaskById config task_id with
        | some task =>
            task.dependencies.foldl
              (fun state dep => collectDependenciesRecursive config fuel dep state)
              (needed, visited)
        | none => (needed, visited)

/-- collect_needed_tasks: the transitive dependency closure of the final
task (cycles terminate at the visited check). -/
def collectNeededTasks (config : TaskRegistry) (final_task : String) : List String :=
  (collectDependenciesRecursive config (config.length + 2) final_task ([], [])).1

/-- The reverse-adjacency map of the graph: task id to the ids of tasks
that directly depend on it, over the needed set only. -/
abbrev TaskParents := List (String × List String)

/-- Push task_id onto the parents list of dep, only when dep has an entry
(a missing entry is logged and ignored in the source). -/
def pushParent (task_parents : TaskParents) (dep : String) (task_id : String) :
    TaskParents :=
  task_parents.map (fun e => if e.1 = dep then (e.1, e.2 ++ [task_id]) else e)

/-- DependencyGraph::from_config: initialize an empty parents list for
every needed task, then for every needed task push it onto the parents
list of each of its declared dependencies. -/
def DependencyGraph.from_config (config : TaskRegistry) (final_task : String) :
    TaskParents :=
  let needed := collectNeededTasks config final_task
  let task_parents := needed.map (fun id => (id, ([] : List String)))
  needed.foldl
    (fun tp task_id =>
      match getTaskById config task_id with
      | some task => task.dependencies.foldl (fun tp dep => pushParent tp dep task_id) tp
      | none => tp)
    task_parents

/-- DependencyGraph::get_parent_by_id. -/
def getParentById (task_parents : TaskParents) (task_id : String) :
    Option (List String) :=
  (task_parents.find? (fun e => e.1 = task_id)).map (fun e => e.2)

/-! ## Scheduler / executor (src/executor/executor_impl.rs) -/

/-- ExecuteTaskError (spawn and wait io sources dropped). -/
inductive ExecuteTaskError where
  | spawnError (command : String) (task_name : String)
  | waitError (command : String) (task_name : String)
  | unsuccessfulExecution (command : String) (task_name : String) (status : Int)
deriving Repr, DecidableEq

/-- TaskError: a task execution failure or a dropped result channel. -/
inductive TaskError where
  | executionError (source : ExecuteTaskError)
  | canceledError
deriving Repr, DecidableEq

/-- ExecutionError: the executor error taxonomy. -/
inductive ExecutionError where
  | taskDispatchError (task_id : String) (error : String)
  | taskExecutionError (source : TaskError)
  | executionEndedPrematurely
deriving Repr, DecidableEq

/-- A completion event on the channel: Ok(task_id) or Err(task_error). -/
abbrev CompletionEvent := Except TaskError String

/-- Decidable equality of Except values with decidable components. -/
instance {α β : Type} [DecidableEq α] [DecidableEq β] : DecidableEq (Except α β) :=
  fun a b =>
    match a, b with
    | .ok x, .ok y =>
        if h : x = y then isTrue (by rw [h]) else isFalse (by simp [h])
    | .ok _, .error _ => isFalse (by simp)
    | .error _, .ok _ => isFalse (by simp)
    | .error x, .error y =>
        if h : x = y then isTrue (by rw [h]) else isFalse (by simp [h])

/-- The scheduler state of one execute() invocation: the FIFO completion
channel contents, the remaining-dependency counts, the arrival-ordered
completed list, and (model instrumentation) the dispatch trace. Counts
are Int so that a decrement below zero does not reach zero, as with the
wrapping u32 of the source. -/
structure SchedState where
  queue : List CompletionEvent
  counts : List (String × Int)
  completed : List String
  dispatched : List String
deriving Repr, DecidableEq

/-- Lookup a remaining-dependency count. -/
def countLookup (counts : List (String × Int)) (id : String) : Option Int :=
  (counts.find? (fun e => e.1 = id)).map (fun e => e.2)

/-- Store a remaining-dependency count (the id is present). -/
def countSet (counts : List (String × Int)) (id : String) (v : Int) :
    List (String × Int) :=
  counts.map (fun e => if e.1 = id then (e.1, v) else e)

/-- Executor::initialize_dependency_counts: every catalog task mapped to
the length of its declared dependencies list. -/
def initializeDependencyCounts (config : TaskRegistry) : List (String × Int) :=
  config.map (fun t => (t.id, (t.dependencies.length : Int)))

/-- Executor::dispatch_task: an up-to-date task is skipped and a
synthetic Ok event is enqueued; otherwise the task runs on the worker
pool and its completion event (Ok(id) on success, the error otherwise)
is forwarded to the channel. The model enqueues the worker event at
dispatch time, realizing one admissible schedule, and the worker pool
never rejects a submission. upToDate abstracts the tracker consultation
and runOutcome the subprocess result. -/
def dispatchTask (upToDate : Task → Bool) (runOutcome : Task → Option TaskError)
    (st : SchedState) (task : Task) : SchedState :=
  let st := { st with dispatched := st.dispatched ++ [task.id] }
  if upToDate task then
    { st with queue := st.queue ++ [.ok task.id] }
  else
    match runOutcome task with
    | none => { st with queue := st.queue ++ [.ok task.id] }
    | some e => { st with queue := st.queue ++ [.error e] }

/-- Executor::dispatch_initial_tasks: dispatch every graph entry whose
parents list is empty and whose task exists in the catalog. -/
def dispatchInitialTasks (config : TaskRegistry) (task_parents : TaskParents)
    (upToDate : Task → Bool) (runOutcome : Task → Option TaskError)
    (st : SchedState) : SchedState :=
  let ready : List Task :=
    task_parents.filterMap
      (fun e => if e.2 = ([] : List String) then getTaskById config e.1 else none)
  ready.foldl (dispatchTask upToDate runOutcome) st

/-- Executor::handle_task_completion: decrement the remaining count of
every parent of the completed task and dispatch a parent that reaches
zero and exists in the catalog. -/
def handleTaskCompletion (config : TaskRegistry) (task_parents : TaskParents)
    (upToDate : Task → Bool) (runOutcome : Task → Option TaskError)
    (completed_task_id : String) (st : SchedState) : SchedState :=
  let parent_tasks := (getParentById task_parents completed_task_id).getD []
  parent_tasks.foldl
    (fun st parent_id =>
      match countLookup st.counts parent_id with
      | none => st
      | some count =>
          let count := count - 1
          let st := { st with counts := countSet st.counts parent_id count }
          if count = 0 then
            match getTaskById config parent_id with
            | some task => dispatchTask upToDate runOutcome st task
            | none => st
          else st)
    st

/-- Executor::process_task_results: drain the completion channel. An Ok
event is appended to the completed list; the target returns success; any
Err event returns a TaskExecutionError at once; an empty channel is
ExecutionEndedPrematurely. The fuel bounds the number of consumed events;
none means the fuel ran out before the loop returned. -/
def processTaskResults (config : TaskRegistry) (task_parents : TaskParents)
    (target : String) (upToDate : Task → Bool) (runOutcome : Task → Option TaskError) :
    Nat → SchedState → Option (Except ExecutionError (List String) × SchedState)
  | 0, _ => none
  | fuel + 1, st =>
      match st.queue with
      | [] => some (.error .executionEndedPrematurely, st)
      | event :: rest =>
          let st := { st with queue := rest }
          match event with
          | .ok task_id =>
              let st := { st with completed := st.completed ++ [task_id] }
              if task_id = target then some (.ok st.completed, st)
              else
                processTaskResults config task_parents target upToDate runOutcome fuel
                  (handleTaskCompletion config task_parents upToDate runOutcome task_id st)
          | .error e => some (.error (.taskExecutionError e), st)

/-- Executor::execute: build the counts, dispatch the initial tasks and
run the completion loop. -/
def Executor.execute (config : TaskRegistry) (target : String)
    (upToDate : Task → Bool) (runOutcome : Task → Option TaskError) (fuel : Nat) :
    Option (Except ExecutionError (List String) × SchedState) :=
  let task_parents := DependencyGraph.from_config config target
  let st : SchedState :=
    { queue := [], counts := initializeDependencyCounts config
      completed := [], dispatched := [] }
  let st := dispatchInitialTasks config task_parents upToDate runOutcome st
  processTaskResults config task_parents target upToDate runOutcome fuel st

/-! ## Concrete catalogs for the end-to-end claims -/

/-- A task with no inputs built from id, dependencies and command. -/
def mkTask (id : String) (deps : List String) (command : String) : Task :=
  .execute { base_task := { name := id, dependencies := deps, inputs := [] }
             command := command }

/-- The linear chain catalog of spec scenario 1:
a has no dependencies, b depends on a, c depends on b. -/
def chainCatalog : TaskRegistry :=
  [mkTask "a" [] "echo a", mkTask "b" ["a"] "echo b", mkTask "c" ["b"] "echo c"]

/-- The run of the chain catalog with target c, an empty tracker (nothing
up to date) and every subprocess succeeding. -/
def chainRun : Option (Except ExecutionError (List String) × SchedState) :=
  Executor.execute chainCatalog "c" (fun _ => false) (fun _ => none) 10

/-! ## Theorems -/

/-- C1: Topological dispatch fails on the code. In the recorded run of the
linear chain catalog with target c, the task c is dispatched (it is the
only dispatch of the run) although its declared dependencies list is [b]
and no completion event for b is ever produced: the only completion of
the whole run is c itself. The spec property, that every dependency of a
dispatched task has previously produced an Ok completion event, is
therefore violated by the code. -/
theorem claim_C1_dispatch_without_dependency_completion :
    chainRun.map (fun r => r.2.dispatched) = some ["c"]
    ∧ chainRun.map (fun r => r.2.completed) = some ["c"]
    ∧ (getTaskById chainCatalog "c").map Task.dependencies = some ["b"] := by
  refine ⟨rfl, rfl, rfl⟩

/-- C2: Phase 1 seeding does not dispatch the leaves. For the linear
chain catalog with target c, the set dispatched before any completion
event is consumed is the singleton c, the task with an empty parents
list; the unique leaf a (whose declared dependencies list is empty) is
not dispatched, and c is not a leaf. -/
theorem claim_C2_seeding_dispatches_parentless_not_leaves :
    (dispatchInitialTasks chainCatalog (DependencyGraph.from_config chainCatalog "c")
        (fun _ => false) (fun _ => none)
        { queue := [], counts := initializeDependencyCounts chainCatalog
          completed := [], dispatched := [] }).dispatched = ["c"]
    ∧ (getTaskById chainCatalog "a").map Task.dependencies = some []
    ∧ (getTaskById chainCatalog "c").map Task.dependencies = some ["b"] := by
  refine ⟨rfl, rfl, rfl⟩

/-- C3: Linear chain scenario fails on the code. For the catalog
(a: no dependencies, b: dependsOn a, c: dependsOn b) with target c, an
empty dependency tracker and every subprocess succeeding, execute returns
Ok with completed = [c], not [a, b, c] as claimed. -/
theorem claim_C3_linear_chain_completed_list :
    chainRun.map Prod.fst = some (Except.ok ["c"])
    ∧ chainRun.map Prod.fst ≠ some (Except.ok ["a", "b", "c"]) := by
  refine ⟨rfl, by decide⟩

/-- C4: Termination trichotomy and fail-fast of the completion loop. With
one more unit of fuel available: an empty channel returns
ExecutionEndedPrematurely with the state unchanged; a leading Err event
returns TaskExecutionError of that error immediately, whatever events
follow; a leading Ok event for the target returns Ok of the completed
list ending in the target immediately, whatever events follow. And every
result the loop returns has exactly one of the three shapes. -/
theorem claim_C4_termination_trichotomy (config : TaskRegistry)
    (task_parents : TaskParents) (target : String) (upToDate : Task → Bool)
    (runOutcome : Task → Option TaskError) (fuel : Nat) (st : SchedState) :
    (st.queue = [] →
      processTaskResults config task_parents target upToDate runOutcome (fuel + 1) st
        = some (.error .executionEndedPrematurely, st))
    ∧ (∀ e rest, st.queue = .error e :: rest →
        (processTaskResults config task_parents target upToDate runOutcome
            (fuel + 1) st).map Prod.fst
          = some (.error (.taskExecutionError e)))
    ∧ (∀ rest, st.queue = .ok target :: rest →
        (processTaskResults config task_parents target upToDate runOutcome
            (fuel + 1) st).map Prod.fst
          = some (.ok (st.completed ++ [target])))
    ∧ (∀ res st2,
        processTaskResults config task_parents target upToDate runOutcome fuel st
          = some (res, st2) →
        (∃ ids, res = .ok ids ∧ ids.getLast? = some target)
        ∨ (∃ e, res = .error (.taskExecutionError e))
        ∨ res = .error .executionEndedPrematurely) := by
  refine ⟨?_, ?_, ?_, ?_⟩
  · intro h
    simp [processTaskResults, h]
  · intro e rest h
    simp [processTaskResults, h]
  · intro rest h
    simp [processTaskResults, h]
  · induction fuel generalizing st with
    | zero => intro res st2 h; simp [processTaskResults] at h
    | succ n ih =>
      intro res st2 h
      rw [processTaskResults] at h
      cases hq : st.queue with
      | nil =>
        rw [hq] at h
        simp at h
        exact Or.inr (Or.inr h.1.symm)
      | cons event rest =>
        rw [hq] at h
        cases event with
        | ok task_id =>
          simp at h
          by_cases ht : task_id = target
          · rw [if_pos ht] at h
            simp at h
            refine Or.inl ⟨st.completed ++ [task_id], h.1.symm, ?_⟩
            rw [ht]
            simp
          · rw [if_neg ht] at h
            exact ih _ _ _ h
        | error e =>
          simp at h
          exact Or.inr (Or.inl ⟨e, h.1.symm⟩)

/-- C4 witness: the three exits of the completion loop observed on
concrete states, obtained from the trichotomy theorem. -/
theorem claim_C4_witness :
    processTaskResults [] [] "t" (fun _ => false) (fun _ => none) 1
        { queue := [], counts := [], completed := [], dispatched := [] }
      = some (.error .executionEndedPrematurely,
          { queue := [], counts := [], completed := [], dispatched := [] })
    ∧ (processTaskResults [] [] "t" (fun _ => false) (fun _ => none) 1
        { queue := [.ok "t"], counts := [], completed := [], dispatched := [] }).map
          Prod.fst = some (.ok ["t"])
    ∧ (processTaskResults [] [] "t" (fun _ => false) (fun _ => none) 1
        { queue := [.error .canceledError], counts := [], completed := [],
          dispatched := [] }).map Prod.fst
      = some (.error (.taskExecutionError .canceledError)) := by
  refine ⟨(claim_C4_termination_trichotomy [] [] "t" (fun _ => false) (fun _ => none) 0
      { queue := [], counts := [], completed := [], dispatched := [] }).1 rfl,
    ?_, ?_⟩
  · exact (claim_C4_termination_trichotomy [] [] "t" (fun _ => false) (fun _ => none) 0
      { queue := [.ok "t"], counts := [], completed := [], dispatched := [] }).2.2.1
      [] rfl
  · exact (claim_C4_termination_trichotomy [] [] "t" (fun _ => false) (fun _ => none) 0
      { queue := [.error .canceledError], counts := [], completed := [],
        dispatched := [] }).2.1 .canceledError [] rfl

/-- C5 counterexample: the claim that a task with zero inputs is up to
date as soon as any record exists for it is false. A tracker holding a
nonempty record for a zero-input task reports it out of date, because
the saved record does not equal the empty fresh expansion. -/
theorem claim_C5_counterexample :
    is_task_up_to_date (fun _ => 0) (FsTree.dir []) []
        [("t", [(["p"], FileFingerprint.hash 0)])] (mkTask "t" [] "cmd") = false
    ∧ trackerLookup [("t", [(["p"], FileFingerprint.hash 0)])] "t" ≠ none
    ∧ (mkTask "t" [] "cmd").inputs = [] := by
  refine ⟨rfl, by decide, rfl⟩

/-- C5 (amended): the up-to-date decision rule. is_task_up_to_date is
false when no record exists for the task id; with a saved record it is
true exactly when the record equals the fresh expansion of the inputs as
mappings; and a task with zero inputs is up to date exactly when its
record exists and is the empty mapping. -/
theorem claim_C5_up_to_date_decision_rule (metroHash : List Nat → Nat) (fs : FsTree)
    (cwd : FsPath) (tr : Tracker) (task : Task) :
    (trackerLookup tr task.id = none →
      is_task_up_to_date metroHash fs cwd tr task = false)
    ∧ (∀ saved, trackerLookup tr task.id = some saved →
        (is_task_up_to_date metroHash fs cwd tr task = true ↔
          depMapEquiv saved (getDependenciesFromInputs metroHash fs cwd task.inputs)
            = true))
    ∧ (task.inputs = [] →
        (is_task_up_to_date metroHash fs cwd tr task = true ↔
          ∃ saved, trackerLookup tr task.id = some saved ∧ depMapEquiv saved [] = true)) := by
  refine ⟨?_, ?_, ?_⟩
  · intro h
    simp [is_task_up_to_date, h]
  · intro saved h
    simp [is_task_up_to_date, h]
  · intro h
    cases hl : trackerLookup tr task.id with
    | none =>
      have hf : is_task_up_to_date metroHash fs cwd tr task = false := by
        simp [is_task_up_to_date, hl]
      rw [hf]
      constructor
      · intro hc
        exact absurd hc (by simp)
      · rintro ⟨saved, hs, _⟩
        exact Option.noConfusion hs
    | some saved =>
      have hexp : getDependenciesFromInputs metroHash fs cwd task.inputs = [] := by
        rw [h]; rfl
      have hv : is_task_up_to_date metroHash fs cwd tr task
          = depMapEquiv saved [] := by
        simp [is_task_up_to_date, hl, hexp]
      rw [hv]
      constructor
      · intro hc
        exact ⟨saved, rfl, hc⟩
      · rintro ⟨saved2, hs, hc⟩
        cases hs
        exact hc

/-- C5 witness: a zero-input task whose record is the empty mapping is up
to date, by the amended decision rule. -/
theorem claim_C5_witness :
    is_task_up_to_date (fun _ => 0) (FsTree.dir []) [] [("t", [])]
        (mkTask "t" [] "cmd") = true :=
  ((claim_C5_up_to_date_decision_rule (fun _ => 0) (FsTree.dir []) [] [("t", [])]
      (mkTask "t" [] "cmd")).2.2 rfl).mpr ⟨[], rfl, rfl⟩

/-- C6: Persistence round-trip and corrupt-input degradation. Whenever
the serializer and compressor round-trip on the value (bincode and zstd
are external crates, given as parameters), decoding the bytes the write
path produced yields the original tracker; and any byte sequence that
fails decompression, or decompresses to bytes that fail decoding, reads
as the default empty tracker. -/
theorem claim_C6_persistence_round_trip (encode : Tracker → Except String Bytes)
    (compress : Bytes → Except String Bytes) (decode : Bytes → Except String Tracker)
    (decompress : Bytes → Except String Bytes) (tr : Tracker) (bytes : Bytes) :
    (∀ encoded compressed,
      encode tr = .ok encoded → compress encoded = .ok compressed →
      decompress compressed = .ok encoded → decode encoded = .ok tr →
      write_bytes encode compress tr = some compressed
      ∧ read_from_bytes decompress decode compressed = tr)
    ∧ (∀ e, decompress bytes = .error e → read_from_bytes decompress decode bytes = [])
    ∧ (∀ d e, decompress bytes = .ok d → decode d = .error e →
        read_from_bytes decompress decode bytes = []) := by
  refine ⟨?_, ?_, ?_⟩
  · intro encoded compressed h1 h2 h3 h4
    constructor
    · simp [write_bytes, h1, h2]
    · simp [read_from_bytes, h3, h4]
  · intro e h
    simp [read_from_bytes, h]
  · intro d e h1 h2
    simp [read_from_bytes, h1, h2]

/-- C6 witness: a concrete round-tripping codec pair on a one-task
tracker, and a decompressor failure on concrete bytes, via the
round-trip theorem. -/
theorem claim_C6_witness :
    write_bytes (fun _ => .ok [1]) (fun b => .ok b) [("t", [])] = some [1]
    ∧ read_from_bytes (fun b => .ok b) (fun _ => .ok [("t", [])]) [1] = [("t", [])]
    ∧ read_from_bytes (fun _ => .error "zstd") (fun _ => .ok [("t", [])]) [9] = [] := by
  have h := claim_C6_persistence_round_trip (fun _ => .ok [1]) (fun b => .ok b)
    (fun _ => .ok [("t", [])]) (fun b => .ok b) [("t", [])] [9]
  have h2 := claim_C6_persistence_round_trip (fun _ => .ok [1]) (fun b => .ok b)
    (fun _ => .ok [("t", [])]) (fun _ => .error "zstd") [("t", [])] [9]
  exact ⟨(h.1 [1] [1] rfl rfl rfl rfl).1, (h.1 [1] [1] rfl rfl rfl rfl).2,
    h2.2.1 "zstd" rfl⟩

/-- C7 counterexample: the expansion of the code resolves inputs against
the current working directory, not the project root. With a file present
only below the project root, the code expansion from a different working
directory is empty while the spec expansion anchored at the root finds
the file. -/
theorem claim_C7_counterexample :
    getDependenciesFromInputs (fun _ => 0)
        (FsTree.dir [("proj", FsTree.dir [("in.txt", FsTree.file (some 1) none)]),
                     ("home", FsTree.dir [])])
        ["home"] ["in.txt"] = []
    ∧ expandSpec (fun _ => 0)
        (FsTree.dir [("proj", FsTree.dir [("in.txt", FsTree.file (some 1) none)]),
                     ("home", FsTree.dir [])])
        ["proj"] ["in.txt"] = [(["proj", "in.txt"], FileFingerprint.modifiedTime 1)]
    ∧ (["home"] : FsPath) ≠ ["proj"] := by
  refine ⟨rfl, rfl, by decide⟩

/-- C7 (amended): the input expansion of the code coincides with the
expansion described by the spec, with the resolution base being the
process current working directory. Each input resolves against that
base; a regular file contributes its resolved path with its fingerprint,
a directory contributes every regular file recursively beneath it, and a
nonexistent input contributes nothing. -/
theorem claim_C7_expansion_uses_cwd (metroHash : List Nat → Nat) (fs : FsTree)
    (cwd : FsPath) (inputs : List String) :
    getDependenciesFromInputs metroHash fs cwd inputs
      = expandSpec metroHash fs cwd inputs := by
  unfold getDependenciesFromInputs expandSpec
  congr 1
  funext acc input
  cases h : fsResolve fs (joinPath cwd input) with
  | none => simp [getDependenciesFromInput, h]
  | some node =>
    cases node with
    | file modified contents =>
      cases hf : fingerprintFileNode metroHash modified contents with
      | none => simp [getDependenciesFromInput, h, hf]
      | some fp => simp [getDependenciesFromInput, h, hf]
    | dir entries => simp [getDependenciesFromInput, h]

/-- Lookup after a tracker insert: the inserted id maps to the inserted
record, every other id is unchanged. -/
theorem trackerLookup_insert (tr : Tracker) (id k : String) (deps : DepMap) :
    trackerLookup (trackerInsert tr k deps) id
      = if id = k then some deps else trackerLookup tr id := by
  by_cases h : id = k
  · subst h
    simp [trackerInsert, trackerLookup]
  · rw [if_neg h]
    have hk : ¬ (k = id) := fun hk => h hk.symm
    simp only [trackerInsert, trackerLookup]
    rw [List.find?_cons_of_neg _ (by simp [hk])]
    congr 1
    induction tr with
    | nil => rfl
    | cons e rest ih =>
      rw [List.filter_cons]
      by_cases he : e.1 = k
      · rw [if_neg (by simp [he])]
        rw [ih]
        have hne : ¬ (e.1 = id) := by rw [he]; exact hk
        rw [List.find?_cons_of_neg _ (by simp [hne])]
      · rw [if_pos (by simp [he])]
        by_cases hid : e.1 = id
        · rw [List.find?_cons_of_pos _ (by simp [hid]),
            List.find?_cons_of_pos _ (by simp [hid])]
        · rw [List.find?_cons_of_neg _ (by simp [hid]),
            List.find?_cons_of_neg _ (by simp [hid])]
          exact ih

/-- Frame property of add_tasks_dependencies: an id that none of the
updated tasks carries keeps its old record. -/
theorem add_tasks_dependencies_frame (metroHash : List Nat → Nat) (fs : FsTree)
    (cwd : FsPath) (tasks : List Task) :
    ∀ (tr : Tracker) (id : String), (∀ t ∈ tasks, Task.id t ≠ id) →
      trackerLookup (add_tasks_dependencies metroHash fs cwd tr tasks) id
        = trackerLookup tr id := by
  induction tasks with
  | nil => intro tr id _; rfl
  | cons t0 rest ih =>
    intro tr id hne
    have h0 : Task.id t0 ≠ id := hne t0 (List.mem_cons_self t0 rest)
    have hrest : ∀ t ∈ rest, Task.id t ≠ id :=
      fun t ht => hne t (List.mem_cons_of_mem t0 ht)
    show trackerLookup (add_tasks_dependencies metroHash fs cwd
        (trackerInsert tr t0.id (getDependenciesFromInputs metroHash fs cwd t0.inputs))
        rest) id = trackerLookup tr id
    rw [ih _ id hrest, trackerLookup_insert, if_neg (fun h => h0 h.symm)]

/-- C8: Tracker update frame condition. The update replaces the record of
every updated task id with the fresh expansion of the task inputs, and
leaves the record of every other id unchanged. The uniqueness hypothesis
(two updated tasks with the same id are the same task) holds of the
executed list, whose tasks come from the catalog by id. -/
theorem claim_C8_update_frame_condition (metroHash : List Nat → Nat) (fs : FsTree)
    (cwd : FsPath) (tr : Tracker) (tasks : List Task) (id : String) :
    ((∀ t ∈ tasks, Task.id t ≠ id) →
      trackerLookup (add_tasks_dependencies metroHash fs cwd tr tasks) id
        = trackerLookup tr id)
    ∧ (∀ t ∈ tasks, (∀ t2 ∈ tasks, Task.id t2 = Task.id t → t2 = t) →
        trackerLookup (add_tasks_dependencies metroHash fs cwd tr tasks) (Task.id t)
          = some (getDependenciesFromInputs metroHash fs cwd t.inputs)) := by
  constructor
  · exact add_tasks_dependencies_frame metroHash fs cwd tasks tr id
  · clear id
    induction tasks generalizing tr with
    | nil => intro t ht; exact absurd ht (List.not_mem_nil t)
    | cons t0 rest ih =>
      intro t ht huniq
      rcases List.mem_cons.mp ht with heq | hmem
      · subst heq
        by_cases hex : ∃ t2 ∈ rest, Task.id t2 = Task.id t
        · obtain ⟨t2, h2m, h2id⟩ := hex
          have h2eq : t2 = t := huniq t2 (List.mem_cons_of_mem t h2m) h2id
          subst h2eq
          exact ih _ t2 h2m
            (fun t3 h3 h3id => huniq t3 (List.mem_cons_of_mem t2 h3) h3id)
        · push_neg at hex
          show trackerLookup (add_tasks_dependencies metroHash fs cwd
              (trackerInsert tr t.id (getDependenciesFromInputs metroHash fs cwd t.inputs))
              rest) t.id = _
          rw [add_tasks_dependencies_frame metroHash fs cwd rest _ _ hex,
            trackerLookup_insert, if_pos rfl]
      · exact ih _ t hmem
          (fun t3 h3 h3id => huniq t3 (List.mem_cons_of_mem t0 h3) h3id)

/-- C8 witness: updating with a single zero-input task a over a tracker
holding a record for x replaces the record of a with the empty expansion
and leaves the record of x unchanged. -/
theorem claim_C8_witness :
    trackerLookup
        (add_tasks_dependencies (fun _ => 0) (FsTree.dir []) []
          [("x", [(["q"], FileFingerprint.hash 5)])] [mkTask "a" [] "cmd"]) "x"
      = some [(["q"], FileFingerprint.hash 5)]
    ∧ trackerLookup
        (add_tasks_dependencies (fun _ => 0) (FsTree.dir []) []
          [("x", [(["q"], FileFingerprint.hash 5)])] [mkTask "a" [] "cmd"]) "a"
      = some [] := by
  have h := claim_C8_update_frame_condition (fun _ => 0) (FsTree.dir []) []
    [("x", [(["q"], FileFingerprint.hash 5)])] [mkTask "a" [] "cmd"] "x"
  refine ⟨(h.1 ?_).trans rfl, ?_⟩
  · intro t ht
    rw [List.mem_singleton] at ht
    subst ht
    decide
  · have h2 := h.2 (mkTask "a" [] "cmd") (List.mem_singleton.mpr rfl)
      (fun t2 h2 _ => List.mem_singleton.mp h2)
    exact h2.trans rfl

/-- C9: Fingerprinter contract. A path that fails to resolve (the
metadata lookup fails) is a PathError; a directory is a DirectoryError;
a file with an available modification time yields ModifiedTime without
reading the contents (the conclusion holds for every contents field); a
file without a modification time but readable contents yields the
content hash; a file where both metadata time and read fail is a
PathError. -/
theorem claim_C9_fingerprinter_contract (metroHash : List Nat → Nat) (fs : FsTree)
    (path : FsPath) :
    (fsResolve fs path = none →
      FileFingerprint.async_try_from metroHash fs path = .error (.pathError path))
    ∧ (∀ entries, fsResolve fs path = some (.dir entries) →
        FileFingerprint.async_try_from metroHash fs path
          = .error (.directoryError path))
    ∧ (∀ t contents, fsResolve fs path = some (.file (some t) contents) →
        FileFingerprint.async_try_from metroHash fs path = .ok (.modifiedTime t))
    ∧ (∀ bytes, fsResolve fs path = some (.file none (some bytes)) →
        FileFingerprint.async_try_from metroHash fs path
          = .ok (.hash (metroHash bytes)))
    ∧ (fsResolve fs path = some (.file none none) →
        FileFingerprint.async_try_from metroHash fs path
          = .error (.pathError path)) := by
  refine ⟨?_, ?_, ?_, ?_, ?_⟩
  · intro h; simp [FileFingerprint.async_try_from, h]
  · intro entries h; simp [FileFingerprint.async_try_from, h]
  · intro t contents h; simp [FileFingerprint.async_try_from, h]
  · intro bytes h; simp [FileFingerprint.async_try_from, h]
  · intro h; simp [FileFingerprint.async_try_from, h]

/-- C9 witness: each case of the fingerprinter contract observed on a
concrete filesystem. -/
theorem claim_C9_witness :
    FileFingerprint.async_try_from (fun _ => 42)
        (FsTree.dir [("f", FsTree.file (some 3) none),
                     ("g", FsTree.file none (some [7])), ("d", FsTree.dir [])])
        ["d"] = .error (.directoryError ["d"])
    ∧ FileFingerprint.async_try_from (fun _ => 42)
        (FsTree.dir [("f", FsTree.file (some 3) none),
                     ("g", FsTree.file none (some [7])), ("d", FsTree.dir [])])
        ["f"] = .ok (.modifiedTime 3)
    ∧ FileFingerprint.async_try_from (fun _ => 42)
        (FsTree.dir [("f", FsTree.file (some 3) none),
                     ("g", FsTree.file none (some [7])), ("d", FsTree.dir [])])
        ["g"] = .ok (.hash 42)
    ∧ FileFingerprint.async_try_from (fun _ => 42)
        (FsTree.dir [("f", FsTree.file (some 3) none),
                     ("g", FsTree.file none (some [7])), ("d", FsTree.dir [])])
        ["zz"] = .error (.pathError ["zz"]) := by
  refine ⟨?_, ?_, ?_, ?_⟩
  · exact (claim_C9_fingerprinter_contract (fun _ => 42) _ ["d"]).2.1 [] rfl
  · exact (claim_C9_fingerprinter_contract (fun _ => 42) _ ["f"]).2.2.1 3 none rfl
  · exact (claim_C9_fingerprinter_contract (fun _ => 42) _ ["g"]).2.2.2.1 [7] rfl
  · exact (claim_C9_fingerprinter_contract (fun _ => 42) _ ["zz"]).1 rfl

/-- C10: Task parsing totality. The parse returns none exactly when the
type key carries a string value other than execute, or the command key
is missing, or the command value is not a string; in every other case it
returns a task whose dependencies and inputs are the dependsOn and
inputs sequences with non-string items filtered, an absent or
non-sequence value yielding the empty list rather than a parse failure. -/
theorem claim_C10_task_parsing_totality (name : String) (data : List (Yaml × Yaml)) :
    (Task.from_task_yaml name data = none ↔
      ((∃ s, taskTypeDeclaration data = some s ∧ s ≠ "execute")
        ∨ yamlMapGet data "command" = none
        ∨ (∃ y, yamlMapGet data "command" = some y ∧ yamlAsStr y = none)))
    ∧ (∀ t, Task.from_task_yaml name data = some t →
        t.dependencies = yamlStringListField data "dependsOn"
        ∧ t.inputs = yamlStringListField data "inputs"
        ∧ ((yamlMapGet data "dependsOn").bind yamlAsSequence = none →
            t.dependencies = [])
        ∧ ((yamlMapGet data "inputs").bind yamlAsSequence = none → t.inputs = [])) := by
  have hexec : ExecuteTask.from_task_yaml name data
      = match yamlMapGet data "command" with
        | none => none
        | some y =>
            match yamlAsStr y with
            | none => none
            | some c =>
                some { base_task := { name := name
                                      dependencies := yamlStringListField data "dependsOn"
                                      inputs := yamlStringListField data "inputs" }
                       command := c } := by
    cases hc : yamlMapGet data "command" with
    | none => simp [ExecuteTask.from_task_yaml, hc]
    | some y =>
      cases hy : yamlAsStr y with
      | none => simp [ExecuteTask.from_task_yaml, hc, hy]
      | some c => simp [ExecuteTask.from_task_yaml, BaseTask.from_task_yaml, hc, hy]
  constructor
  · cases ht : taskTypeDeclaration data with
    | some s =>
      by_cases hs : s = "execute"
      · subst hs
        rw [Task.from_task_yaml, ht]
        simp only [if_pos rfl, hexec]
        cases hc : yamlMapGet data "command" with
        | none => simp [ht]
        | some y =>
          cases hy : yamlAsStr y with
          | none => simp [ht, hy]
          | some c => simp [ht, hy]
      · rw [Task.from_task_yaml, ht]
        simp only [if_neg hs]
        simp only [true_iff]
        exact Or.inl ⟨s, rfl, hs⟩
    | none =>
      rw [Task.from_task_yaml, ht]
      simp only [hexec]
      cases hc : yamlMapGet data "command" with
      | none => simp [ht]
      | some y =>
        cases hy : yamlAsStr y with
        | none => simp [ht, hy]
        | some c => simp [ht, hy]
  · intro t htask
    have hshape : t = Task.execute
        { base_task := { name := name
                         dependencies := yamlStringListField data "dependsOn"
                         inputs := yamlStringListField data "inputs" }
          command := t.command } := by
      cases ht : taskTypeDeclaration data with
      | some s =>
        by_cases hs : s = "execute"
        · subst hs
          cases hc : yamlMapGet data "command" with
          | none => simp [Task.from_task_yaml, ht, hexec, hc] at htask
          | some y =>
            cases hy : yamlAsStr y with
            | none => simp [Task.from_task_yaml, ht, hexec, hc, hy] at htask
            | some c =>
              simp [Task.from_task_yaml, ht, hexec, hc, hy] at htask
              subst htask
              rfl
        · simp [Task.from_task_yaml, ht, hs] at htask
      | none =>
        cases hc : yamlMapGet data "command" with
        | none => simp [Task.from_task_yaml, ht, hexec, hc] at htask
        | some y =>
          cases hy : yamlAsStr y with
          | none => simp [Task.from_task_yaml, ht, hexec, hc, hy] at htask
          | some c =>
            simp [Task.from_task_yaml, ht, hexec, hc, hy] at htask
            subst htask
            rfl
    refine ⟨by rw [hshape]; rfl, by rw [hshape]; rfl, ?_, ?_⟩
    · intro hd
      rw [hshape]
      show yamlStringListField data "dependsOn" = []
      rw [yamlStringListField, hd]
    · intro hi
      rw [hshape]
      show yamlStringListField data "inputs" = []
      rw [yamlStringListField, hi]

/-- C10 witness: a body with only a command parses into a task with empty
dependencies and inputs, and a body with a non-execute string type is
rejected, via the totality theorem. -/
theorem claim_C10_witness :
    Task.from_task_yaml "t" [(Yaml.str "type", Yaml.str "copy")] = none
    ∧ Task.from_task_yaml "t" [(Yaml.str "command", Yaml.str "echo hi")]
      = some (Task.execute
          { base_task := { name := "t", dependencies := [], inputs := [] }
            command := "echo hi" })
    ∧ (Task.execute
          { base_task := { name := "t", dependencies := [], inputs := [] }
            command := "echo hi" }).dependencies = [] := by
  refine ⟨?_, rfl, ?_⟩
  · exact (claim_C10_task_parsing_totality "t" [(Yaml.str "type", Yaml.str "copy")]).1.mpr
      (Or.inl ⟨"copy", rfl, by decide⟩)
  · exact ((claim_C10_task_parsing_totality "t"
      [(Yaml.str "command", Yaml.str "echo hi")]).2 _ rfl).1.trans rfl

end Tessy
